import Mathlib

/-!
Verification of the message persistence and delivery core of a 1:1
text-messaging backend (Go). The Go sources are shallowly embedded:

 * Go strings are `List Char` (`Str`); Go `time.Time` instants are `Nat`
   (the zero value of `time.Time` corresponds to `0`, which is how the
   repository's `cursor.IsZero()` test is modelled);
 * the `messages` table is a `List Message`; its `PRIMARY KEY
   (sender_id, receiver_id, created_at)` is modelled by an explicit
   duplicate-key check in `saveMessage`;
 * SQL `ORDER BY created_at DESC` is modelled by a deterministic
   insertion sort, a refinement of the nondeterministic SQL ordering;
 * fallible operations return `Except`/`Option`.

Embedded functions keep the names of the Go functions they translate:
`Message.Validate`, `ComputeChatID`, `SaveMessage`, `GetMessages`,
`GetChatSessions`, `MarkMessagesUpToRead`, `MarkChatAsRead` from
`internal/domain/message.go` and
`internal/adapters/postgres/message_repository.go`, and the HTTP
use-case handlers `SendMessage`, `GetMessages`, `UpdateMessageStatus`,
`isUserParticipant` from `internal/handlers/http/message_handler.go`.
-/

namespace Messaging

/-- Go strings, modelled as lists of characters. -/
abbrev Str := List Char

/-- Go's byte-wise string comparison `user1 < user2` (lexicographic). -/
def strLt : Str → Str → Bool
  | [], [] => false
  | [], _ :: _ => true
  | _ :: _, [] => false
  | a :: as, b :: bs => if a < b then true else if b < a then false else strLt as bs

/-- Whitespace predicate used by Go's `strings.TrimSpace`
(`unicode.IsSpace` restricted to the characters that can occur in the
fields the spec constrains; the claims only depend on trimming being
some fixed whitespace-trim). -/
def goIsSpace (c : Char) : Bool :=
  c = ' ' || c = '\t' || c = '\n' || c.toNat = 11 || c.toNat = 12 || c = '\r' ||
    c.toNat = 0x85 || c.toNat = 0xA0

/-- Go `strings.TrimSpace`. -/
def trimSpace (s : Str) : Str :=
  ((s.dropWhile goIsSpace).reverse.dropWhile goIsSpace).reverse

/-- Go `strings.HasPrefix pre s` (argument order: the candidate prefix
first, then the string). -/
def hasPrefixB : Str → Str → Bool
  | [], _ => true
  | _ :: _, [] => false
  | p :: ps, c :: cs => p = c && hasPrefixB ps cs

/-- Go `strings.Contains s sub`: some suffix of `s` starts with `sub`. -/
def goContains (s sub : Str) : Bool :=
  match s with
  | [] => hasPrefixB sub []
  | c :: rest => hasPrefixB sub (c :: rest) || goContains rest sub

/-- The three-character chat-id separator `"---"` used by
`domain.ComputeChatID` and split on by the repository. -/
def chatSep : Str := ['-', '-', '-']

/-- Go `strings.Split chatID "---"` (cut at each leftmost,
non-overlapping occurrence of the separator), specialised to the
chat-id separator `"---"`. -/
def splitSep : Str → List Str
  | '-' :: '-' :: '-' :: rest => [] :: splitSep rest
  | c :: rest =>
    match splitSep rest with
    | [] => [[c]]
    | p :: ps => (c :: p) :: ps
  | [] => [[]]

/-- Message status constants from `internal/domain/message.go`. -/
def statusSent : Str := "sent".data

def statusDelivered : Str := "delivered".data

def statusRead : Str := "read".data

/-- `domain.IsValidStatus`: membership in {sent, delivered, read}. -/
def IsValidStatus (status : Str) : Bool :=
  [statusSent, statusDelivered, statusRead].any (fun v => v = status)

/-- `domain.Message` (the `messages` row shape). `createdAt` is the
`time.Time` instant as a `Nat`. -/
structure Message where
  senderId : Str
  receiverId : Str
  createdAt : Nat
  content : Str
  status : Str
deriving DecidableEq, Repr

/-- `domain.MessageID`, the composite natural key. -/
structure MessageID where
  senderId : Str
  receiverId : Str
  createdAt : Nat
deriving DecidableEq, Repr

/-- The validation errors `Message.Validate` can return
(from `internal/domain/errors.go`). -/
inductive ValidationError where
  | invalidSenderID
  | invalidReceiverID
  | selfMessage
  | emptyContent
  | contentTooLong
  | invalidStatus
deriving DecidableEq, Repr

/-- `domain.Message.Validate` from `internal/domain/message.go`,
checks in source order; `none` means the message is accepted. -/
def Validate (m : Message) : Option ValidationError :=
  if trimSpace m.senderId = [] then some .invalidSenderID
  else if trimSpace m.receiverId = [] then some .invalidReceiverID
  else if m.senderId = m.receiverId then some .selfMessage
  else if trimSpace m.content = [] then some .emptyContent
  else if m.content.length > 10000 then some .contentTooLong
  else if !IsValidStatus m.status then some .invalidStatus
  else none

/-- `domain.ComputeChatID`: lexicographically smaller participant
first, joined by `"---"`. -/
def ComputeChatID (user1 user2 : Str) : Str :=
  if strLt user1 user2 then user1 ++ chatSep ++ user2
  else user2 ++ chatSep ++ user1

/-! ## Message store (`internal/adapters/postgres/message_repository.go`)

The `messages` table is a `List Message`. The SQL queries are
translated relationally; `ORDER BY created_at DESC` becomes an
insertion sort by descending `createdAt` (one admissible execution of
the SQL ordering, which does not fix the order of equal timestamps). -/

/-- Key equality for the composite primary key
`(sender_id, receiver_id, created_at)` declared in
`migrations/001_create_messages.up.sql`. -/
def sameKey (a b : Message) : Bool :=
  a.senderId = b.senderId && a.receiverId = b.receiverId && a.createdAt = b.createdAt

/-- Errors `SaveMessage` can surface: a validation failure (wrapped) or
the unique-key violation translated to `domain.ErrDuplicateMessage`. -/
inductive SaveError where
  | validation (e : ValidationError)
  | duplicate
deriving DecidableEq, Repr

/-- `PostgreSQLMessageRepository.SaveMessage`: validate, then `INSERT`;
a primary-key conflict (Postgres error 23505) becomes
`ErrDuplicateMessage`, otherwise the row is appended. -/
def SaveMessage (db : List Message) (m : Message) : Except SaveError (List Message) :=
  match Validate m with
  | some e => .error (.validation e)
  | none =>
    if db.any (fun row => sameKey row m) then .error .duplicate
    else .ok (db ++ [m])

/-- The SQL predicate `(sender_id = u AND receiver_id = v) OR
(sender_id = v AND receiver_id = u)`: the row belongs to the
conversation between `u` and `v`. -/
def betweenUsers (u v : Str) (m : Message) : Bool :=
  (m.senderId = u && m.receiverId = v) || (m.senderId = v && m.receiverId = u)

/-- Descending-`createdAt` order used to model `ORDER BY created_at DESC`. -/
def laterEq (a b : Message) : Prop := b.createdAt ≤ a.createdAt

instance : DecidableRel laterEq := fun _ _ => Nat.decLe _ _

instance : IsTotal Message laterEq := ⟨fun a b => Nat.le_total b.createdAt a.createdAt⟩

instance : IsTrans Message laterEq := ⟨fun _ _ _ h h' => Nat.le_trans h' h⟩

/-- The rows of a `... ORDER BY created_at DESC` result set. -/
def sortByTimeDesc (l : List Message) : List Message := l.insertionSort laterEq

/-- `PostgreSQLMessageRepository.GetMessages`: split the chat id on
`"---"` into exactly two participants (else the invalid-chat-id
error), select both directions of the conversation, apply the
exclusive `created_at < cursor` bound unless the cursor is the zero
time, order by `created_at` descending, and take `LIMIT` rows — where
the limit falls back to the default 50 when the supplied one is
non-positive or above 100. -/
def GetMessages (db : List Message) (chatID : Str) (cursor : Nat) (limit : Int) :
    Except Unit (List Message) :=
  match splitSep chatID with
  | [user1, user2] =>
    .ok ((sortByTimeDesc
        (if cursor = 0 then db.filter (betweenUsers user1 user2)
         else (db.filter (betweenUsers user1 user2)).filter
           (fun m => m.createdAt < cursor))).take
      (if limit ≤ 0 || limit > 100 then (50 : Int) else limit).toNat)
  | _ => .error ()

/-- `domain.ChatSession`. -/
structure ChatSession where
  chatId : Str
  otherParticipant : Str
  lastMessageAt : Nat
  unreadCount : Nat
  lastMessage : Str
  lastMessageBy : Str
deriving DecidableEq, Repr

/-- The SQL `CASE WHEN sender_id = u THEN receiver_id ELSE sender_id END`
in `GetChatSessions` (also `domain.Message.GetOtherParticipant`). -/
def otherOf (u : Str) (m : Message) : Str :=
  if m.senderId = u then m.receiverId else m.senderId

/-- The SQL predicate `sender_id = u OR receiver_id = u`. -/
def involvesUser (u : Str) (m : Message) : Bool :=
  m.senderId = u || m.receiverId = u

/-- Session-ordering used to model the final
`sort.Slice(..., LastMessageAt.After ...)` (descending). -/
def sessionLaterEq (a b : ChatSession) : Prop := b.lastMessageAt ≤ a.lastMessageAt

instance : DecidableRel sessionLaterEq := fun _ _ => Nat.decLe _ _

instance : IsTotal ChatSession sessionLaterEq :=
  ⟨fun a b => Nat.le_total b.lastMessageAt a.lastMessageAt⟩

instance : IsTrans ChatSession sessionLaterEq := ⟨fun _ _ _ h h' => Nat.le_trans h' h⟩

/-- Step 1 of `GetChatSessions`: the `SELECT DISTINCT CASE ... END`
counterparty list over `sender_id = u OR receiver_id = u`. -/
def participantsOf (db : List Message) (userID : Str) : List Str :=
  ((db.filter (involvesUser userID)).map (otherOf userID)).dedup

/-- Step 2 of `GetChatSessions`, the loop body for one counterparty
`p`: the unread count
(`sender_id = p AND receiver_id = u AND status != 'read'`) and the
most recent message of the conversation in either direction
(`ORDER BY created_at DESC LIMIT 1`; the `sql.Null*` zero values when
there is none). -/
def sessionFor (db : List Message) (userID p : Str) : ChatSession :=
  match sortByTimeDesc (db.filter (betweenUsers userID p)) with
  | [] =>
    { chatId := ComputeChatID userID p, otherParticipant := p,
      lastMessageAt := 0,
      unreadCount := ((db.filter (fun m =>
        m.senderId = p && m.receiverId = userID && m.status ≠ statusRead)).length),
      lastMessage := [], lastMessageBy := [] }
  | last :: _ =>
    { chatId := ComputeChatID userID p, otherParticipant := p,
      lastMessageAt := last.createdAt,
      unreadCount := ((db.filter (fun m =>
        m.senderId = p && m.receiverId = userID && m.status ≠ statusRead)).length),
      lastMessage := last.content, lastMessageBy := last.senderId }

/-- `PostgreSQLMessageRepository.GetChatSessions`: one session per
distinct counterparty, finally sorted by `lastMessageAt` descending
(step 3, the `sort.Slice`). -/
def GetChatSessions (db : List Message) (userID : Str) : List ChatSession :=
  (((participantsOf db userID).map (sessionFor db userID)).insertionSort sessionLaterEq)

/-- The `WHERE` clause of `MarkMessagesUpToRead`'s `UPDATE`:
`receiver_id = $1 AND sender_id = $2 AND created_at <= $3 AND status != 'read'`. -/
def upToReadPred (mid : MessageID) (m : Message) : Bool :=
  m.receiverId = mid.receiverId && m.senderId = mid.senderId &&
    m.createdAt ≤ mid.createdAt && m.status ≠ statusRead

/-- `PostgreSQLMessageRepository.MarkMessagesUpToRead`: one transactional
`UPDATE ... SET status = 'read'` over the rows matched by
`upToReadPred`; returns the new table and the affected-row count. -/
def MarkMessagesUpToRead (db : List Message) (mid : MessageID) : List Message × Nat :=
  (db.map (fun m => if upToReadPred mid m then { m with status := statusRead } else m),
   (db.filter (upToReadPred mid)).length)

/-- `PostgreSQLMessageRepository.MarkChatAsRead`: split the chat id,
pick the participant other than `userID` (defaulting to the second part
when the first equals `userID`), and set `status = 'read'` on every
not-yet-read message from that participant to `userID`. -/
def MarkChatAsRead (db : List Message) (userID chatID : Str) : Except Unit (List Message) :=
  match splitSep chatID with
  | [user1, user2] =>
    let otherUser := if user1 = userID then user2 else user1
    .ok (db.map (fun m =>
      if m.senderId = otherUser && m.receiverId = userID && m.status ≠ statusRead then
        { m with status := statusRead }
      else m))
  | _ => .error ()

/-- `PostgreSQLMessageRepository.GetMessageByID` (read-only). -/
def GetMessageByID (db : List Message) (mid : MessageID) : Option Message :=
  db.find? (fun m =>
    m.senderId = mid.senderId && m.receiverId = mid.receiverId && m.createdAt = mid.createdAt)

/-- `PostgreSQLMessageRepository.GetUnreadCount` (read-only). -/
def GetUnreadCount (db : List Message) (userID chatID : Str) : Except Unit Nat :=
  match splitSep chatID with
  | [user1, user2] =>
    let otherUser := if user1 = userID then user2 else user1
    .ok ((db.filter (fun m =>
      m.senderId = otherUser && m.receiverId = userID && m.status ≠ statusRead)).length)
  | _ => .error ()

/-- One repository operation, for stating invariants over arbitrary
operation sequences. Read operations leave the table unchanged. -/
inductive RepoOp where
  | save (m : Message)
  | markUpToRead (mid : MessageID)
  | markChatRead (userID chatID : Str)
  | getMessages (chatID : Str) (cursor : Nat) (limit : Int)
  | getChatSessions (userID : Str)
  | getMessageByID (mid : MessageID)
  | getUnreadCount (userID chatID : Str)

/-- The table after one repository operation (a failed operation leaves
the table unchanged, as the Go methods return before writing or roll
the transaction back). -/
def applyOp (db : List Message) : RepoOp → List Message
  | .save m =>
    match SaveMessage db m with
    | .ok db' => db'
    | .error _ => db
  | .markUpToRead mid => (MarkMessagesUpToRead db mid).1
  | .markChatRead u cid =>
    match MarkChatAsRead db u cid with
    | .ok db' => db'
    | .error _ => db
  | .getMessages _ _ _ => db
  | .getChatSessions _ => db
  | .getMessageByID _ => db
  | .getUnreadCount _ _ => db

/-- The table after a sequence of repository operations. -/
def applyOps (db : List Message) (ops : List RepoOp) : List Message :=
  ops.foldl applyOp db

/-! ## Use-case handlers (`internal/handlers/http/message_handler.go`)

The handlers are embedded from the point where transport concerns
(path splitting, JSON decoding, auth-header extraction) have produced
their values: the authenticated user id, the path parameter, the
decoded request body, and `time.Now().UTC()` as a `Nat` instant.
The notifier call is a boolean input `publishOk` (`true` = the publish
succeeded); the Go handlers only log a publish failure, which the
outcome records in `publishFailureLogged`. -/

namespace Handler

/-- `http.SendMessageRequest`: the client-supplied body carries only
the content. -/
structure SendMessageRequest where
  content : Str
deriving DecidableEq, Repr

/-- The observable responses of the send handler. -/
inductive SendResp where
  | created (m : Message)
  | badRequestValidation (e : ValidationError)
  | conflictDuplicate
  | internalError
deriving DecidableEq, Repr

/-- Outcome of one send request: response, resulting table, and
whether a notifier failure was logged. -/
structure SendOutcome where
  resp : SendResp
  db : List Message
  publishFailureLogged : Bool
deriving DecidableEq, Repr

/-- The message the send handler constructs ("Create message with
current timestamp"): the authenticated user as sender, the path
parameter as receiver, `time.Now().UTC()` as `createdAt`, the request
body's content, and status `"sent"`. -/
def mkSentMessage (userID receiverID content : Str) (now : Nat) : Message :=
  { senderId := userID, receiverId := receiverID, createdAt := now,
    content := content, status := statusSent }

/-- `MessageHandler.SendMessage`: build the message via
`mkSentMessage`, validate, save (duplicate key is a 409 conflict,
other store errors a 500), then publish — a publish failure is only
logged, the request still succeeds. -/
def SendMessage (db : List Message) (userID receiverID : Str) (req : SendMessageRequest)
    (now : Nat) (publishOk : Bool) : SendOutcome :=
  match Validate (mkSentMessage userID receiverID req.content now) with
  | some e => { resp := .badRequestValidation e, db := db, publishFailureLogged := false }
  | none =>
    match SaveMessage db (mkSentMessage userID receiverID req.content now) with
    | .error .duplicate => { resp := .conflictDuplicate, db := db, publishFailureLogged := false }
    | .error (.validation _) => { resp := .internalError, db := db, publishFailureLogged := false }
    | .ok db' =>
      { resp := .created (mkSentMessage userID receiverID req.content now), db := db',
        publishFailureLogged := !publishOk }

/-- `MessageHandler.isUserParticipant`: `strings.Contains(chatID, userID)`. -/
def isUserParticipant (userID chatID : Str) : Bool :=
  goContains chatID userID

/-- The observable responses of the list-messages handler. -/
inductive GetResp where
  | okPage (messages : List Message) (nextCursor : Option Nat) (hasMore : Bool)
  | forbidden
  | badRequestLimit
  | internalError
deriving DecidableEq, Repr

/-- Outcome of one list request: response plus whether the store was
consulted. -/
structure GetOutcome where
  resp : GetResp
  storeQueried : Bool
deriving DecidableEq, Repr

/-- The limit validation of the list handler: an absent `limit` query
parameter defaults to 50; a supplied one outside [1,100] is rejected. -/
def checkLimit : Option Int → Except Unit Int
  | none => .ok 50
  | some l => if l < 1 || l > 100 then .error () else .ok l

/-- The part of `MessageHandler.GetMessages` following the participant
check: limit validation, delegation to the repository, and the
`HasMore`/`NextCursor` computation (`HasMore` when the page is full,
`NextCursor` the `createdAt` of the last returned message). -/
def GetMessagesAuthorized (db : List Message) (chatID : Str) (cursor : Nat)
    (limitParam : Option Int) : GetOutcome :=
  match checkLimit limitParam with
  | .error _ => { resp := .badRequestLimit, storeQueried := false }
  | .ok limit =>
    match Messaging.GetMessages db chatID cursor limit with
    | .error _ => { resp := .internalError, storeQueried := true }
    | .ok messages =>
      { resp := .okPage messages
          (if (messages.length : Int) = limit then (messages.getLast?).map (·.createdAt)
           else none)
          (decide ((messages.length : Int) = limit)),
        storeQueried := true }

/-- `MessageHandler.GetMessages`: participant check (403 before any
store access), then `GetMessagesAuthorized`. The cursor is a `Nat`
instant, `0` standing for the absent/zero cursor. -/
def GetMessages (db : List Message) (userID chatID : Str) (cursor : Nat)
    (limitParam : Option Int) : GetOutcome :=
  if !isUserParticipant userID chatID then { resp := .forbidden, storeQueried := false }
  else GetMessagesAuthorized db chatID cursor limitParam

/-- `http.UpdateStatusRequest`. -/
structure UpdateStatusRequest where
  messageId : MessageID
deriving DecidableEq, Repr

/-- The observable responses of the status-update handler. -/
inductive UpdateResp where
  | okCount (updatedCount : Nat)
  | forbidden
deriving DecidableEq, Repr

/-- Outcome of one status-update request. -/
structure UpdateOutcome where
  resp : UpdateResp
  db : List Message
  publishFailureLogged : Bool
deriving DecidableEq, Repr

/-- `MessageHandler.UpdateMessageStatus`: only the receiver of the
target message id may cascade (403 otherwise), then
`MarkMessagesUpToRead`, then a best-effort status publish whose
failure is only logged. -/
def UpdateMessageStatus (db : List Message) (userID : Str) (req : UpdateStatusRequest)
    (publishOk : Bool) : UpdateOutcome :=
  if req.messageId.receiverId ≠ userID then
    { resp := .forbidden, db := db, publishFailureLogged := false }
  else
    let r := MarkMessagesUpToRead db req.messageId
    { resp := .okCount r.2, db := r.1, publishFailureLogged := !publishOk }

end Handler

/-! ## Shared fixtures for witnesses and counterexamples -/

/-- A valid message from alice to bob, used as a concrete witness input. -/
def wMsg : Message :=
  { senderId := "alice".data, receiverId := "bob".data, createdAt := 1,
    content := "hi".data, status := statusSent }

/-! ## Helper lemmas -/

theorem strLt_asymm : ∀ {a b : Str}, strLt a b = true → strLt b a = false := by
  intro a
  induction a with
  | nil =>
    intro b h
    cases b with
    | nil => simp [strLt] at h
    | cons y ys => simp [strLt]
  | cons x xs ih =>
    intro b h
    cases b with
    | nil => simp [strLt] at h
    | cons y ys =>
      by_cases hxy : x < y
      · have hyx : ¬ y < x := lt_asymm hxy
        simp [strLt, hxy, hyx]
      · by_cases hyx : y < x
        · simp [strLt, hxy, hyx] at h
        · simp only [strLt, if_neg hxy, if_neg hyx] at h ⊢
          exact ih h

theorem strLt_conn : ∀ {a b : Str}, strLt a b = false → strLt b a = false → a = b := by
  intro a
  induction a with
  | nil =>
    intro b h1 _
    cases b with
    | nil => rfl
    | cons y ys => simp [strLt] at h1
  | cons x xs ih =>
    intro b h1 h2
    cases b with
    | nil => simp [strLt] at h2
    | cons y ys =>
      by_cases hxy : x < y
      · simp [strLt, hxy] at h1
      · by_cases hyx : y < x
        · simp [strLt, hyx] at h2
        · have hx : x = y := le_antisymm (not_lt.mp hyx) (not_lt.mp hxy)
          simp only [strLt, if_neg hxy, if_neg hyx] at h1 h2
          rw [hx, ih h1 h2]

theorem sameKey_self (m : Message) : sameKey m m = true := by
  simp [sameKey]

theorem saveMessage_ok_validate {db db' : List Message} {m : Message}
    (h : SaveMessage db m = .ok db') : Validate m = none := by
  unfold SaveMessage at h
  cases hv : Validate m with
  | none => rfl
  | some e => rw [hv] at h; exact Except.noConfusion h

theorem saveMessage_ok_shape {db db' : List Message} {m : Message}
    (h : SaveMessage db m = .ok db') : db' = db ++ [m] := by
  unfold SaveMessage at h
  cases hv : Validate m with
  | some e => rw [hv] at h; exact Except.noConfusion h
  | none =>
    rw [hv] at h
    by_cases hany : db.any (fun row => sameKey row m) = true
    · simp [hany] at h
    · simp only [Bool.not_eq_true] at hany
      simp [hany] at h
      exact h.symm

/-! ## C1: saving twice with the same key -/

/-- C1: for a valid message whose key is not yet in the store, the
first `Save` succeeds by appending it, the second `Save` of the same
message returns the duplicate-key error and leaves the store
unchanged, and the store then holds exactly one row with that key. -/
theorem saveMessage_twice_duplicate (db : List Message) (m : Message)
    (hv : Validate m = none)
    (hfresh : ∀ row ∈ db, sameKey row m = false) :
    SaveMessage db m = .ok (db ++ [m]) ∧
    SaveMessage (db ++ [m]) m = .error .duplicate ∧
    (db ++ [m]).countP (fun row => sameKey row m) = 1 := by
  have hany : db.any (fun row => sameKey row m) = false := by
    rw [List.any_eq_false]
    intro x hx
    simp [hfresh x hx]
  refine ⟨?_, ?_, ?_⟩
  · unfold SaveMessage
    rw [hv]
    simp [hany]
  · unfold SaveMessage
    rw [hv]
    have : (db ++ [m]).any (fun row => sameKey row m) = true := by
      rw [List.any_eq_true]
      exact ⟨m, by simp, sameKey_self m⟩
    simp [this]
  · rw [List.countP_append]
    have h0 : db.countP (fun row => sameKey row m) = 0 := by
      rw [List.countP_eq_zero]
      intro a ha
      simp [hfresh a ha]
    simp [h0, List.countP_cons, sameKey_self]

/-- Witness for C1 at a concrete message and the empty store. -/
theorem saveMessage_twice_duplicate_witness :
    SaveMessage ([] : List Message) wMsg = .ok ([] ++ [wMsg]) ∧
    SaveMessage ([] ++ [wMsg]) wMsg = .error .duplicate ∧
    ([] ++ [wMsg]).countP (fun row => sameKey row wMsg) = 1 :=
  saveMessage_twice_duplicate [] wMsg (by decide) (by decide)

/-! ## C3: read status never regresses -/

theorem applyOp_keeps_read (db : List Message) (op : RepoOp) (m : Message)
    (hm : m ∈ db) (hr : m.status = statusRead) : m ∈ applyOp db op := by
  cases op with
  | save m' =>
    simp only [applyOp]
    cases h : SaveMessage db m' with
    | error e => exact hm
    | ok db' => rw [saveMessage_ok_shape h]; exact List.mem_append_left _ hm
  | markUpToRead mid =>
    simp only [applyOp, MarkMessagesUpToRead]
    have hpred : upToReadPred mid m = false := by
      simp [upToReadPred, hr]
    exact List.mem_map.mpr ⟨m, hm, by simp [hpred]⟩
  | markChatRead u cid =>
    simp only [applyOp]
    cases h : MarkChatAsRead db u cid with
    | error e => exact hm
    | ok db' =>
      unfold MarkChatAsRead at h
      split at h
      · cases h
        refine List.mem_map.mpr ⟨m, hm, ?_⟩
        simp [hr]
      · exact Except.noConfusion h
  | getMessages cid cursor limit => exact hm
  | getChatSessions u => exact hm
  | getMessageByID mid => exact hm
  | getUnreadCount u cid => exact hm

/-- C3: a message whose status is `read` survives, unchanged, any
sequence of repository operations — no operation moves it back to
`sent` or `delivered`. -/
theorem read_status_never_regresses (ops : List RepoOp) (db : List Message) (m : Message)
    (hm : m ∈ db) (hr : m.status = statusRead) : m ∈ applyOps db ops := by
  induction ops generalizing db with
  | nil => exact hm
  | cons op rest ih => exact ih (applyOp db op) (applyOp_keeps_read db op m hm hr)

/-- Witness for C3: a read message survives a save, a cascade over its
own conversation, and a mark-chat-as-read. -/
theorem read_status_never_regresses_witness :
    { senderId := "alice".data, receiverId := "bob".data, createdAt := 1,
      content := "hi".data, status := statusRead : Message } ∈
      applyOps [{ senderId := "alice".data, receiverId := "bob".data, createdAt := 1,
                  content := "hi".data, status := statusRead }]
        [.save { senderId := "alice".data, receiverId := "bob".data, createdAt := 2,
                 content := "yo".data, status := statusSent },
         .markUpToRead { senderId := "alice".data, receiverId := "bob".data, createdAt := 5 },
         .markChatRead "bob".data "alice---bob".data] :=
  read_status_never_regresses _ _ _ (by decide) (by decide)

/-! ## C5: chat-id symmetry -/

/-- C5: `ComputeChatID` is order-independent in its two arguments
(proved for all pairs, in particular all pairs with `a ≠ b`). -/
theorem computeChatID_symm (a b : Str) : ComputeChatID a b = ComputeChatID b a := by
  unfold ComputeChatID
  cases h1 : strLt a b with
  | true =>
    have h2 : strLt b a = false := strLt_asymm h1
    simp [h2]
  | false =>
    cases h2 : strLt b a with
    | true => simp
    | false => simp [strLt_conn h1 h2]

/-! ## C4: publish failure never affects the use-case outcome -/

/-- C4: once persistence has succeeded, the send use case responds
`201 Created` with the persisted message and keeps the new store, and
the status-update use case responds with the cascade's updated count
and keeps the cascaded store — for either value of the notifier's
publish result, which therefore cannot change the response, roll the
write back, or surface an error. -/
theorem publish_failure_does_not_affect_outcome
    (db db' : List Message) (userID receiverID : Str) (req : Handler.SendMessageRequest)
    (now : Nat) (ureq : Handler.UpdateStatusRequest) (publishOk : Bool)
    (hsave : SaveMessage db (Handler.mkSentMessage userID receiverID req.content now) = .ok db')
    (hauth : ureq.messageId.receiverId = userID) :
    (Handler.SendMessage db userID receiverID req now publishOk).resp =
      .created (Handler.mkSentMessage userID receiverID req.content now) ∧
    (Handler.SendMessage db userID receiverID req now publishOk).db = db' ∧
    (Handler.UpdateMessageStatus db userID ureq publishOk).resp =
      .okCount (MarkMessagesUpToRead db ureq.messageId).2 ∧
    (Handler.UpdateMessageStatus db userID ureq publishOk).db =
      (MarkMessagesUpToRead db ureq.messageId).1 := by
  have hv := saveMessage_ok_validate hsave
  refine ⟨?_, ?_, ?_, ?_⟩
  · unfold Handler.SendMessage
    rw [hv, hsave]
  · unfold Handler.SendMessage
    rw [hv, hsave]
  · unfold Handler.UpdateMessageStatus
    simp [hauth]
  · unfold Handler.UpdateMessageStatus
    simp [hauth]

/-- Witness for C4: concrete send and read-cascade with a FAILED
publish (`publishOk = false`); outcomes are the persisted ones. -/
theorem publish_failure_does_not_affect_outcome_witness :
    (Handler.SendMessage [] "alice".data "bob".data ⟨"hi".data⟩ 1 false).resp =
      .created (Handler.mkSentMessage "alice".data "bob".data "hi".data 1) ∧
    (Handler.SendMessage [] "alice".data "bob".data ⟨"hi".data⟩ 1 false).db = [wMsg] ∧
    (Handler.UpdateMessageStatus [] "alice".data ⟨⟨"bob".data, "alice".data, 7⟩⟩ false).resp =
      .okCount (MarkMessagesUpToRead [] ⟨"bob".data, "alice".data, 7⟩).2 ∧
    (Handler.UpdateMessageStatus [] "alice".data ⟨⟨"bob".data, "alice".data, 7⟩⟩ false).db =
      (MarkMessagesUpToRead [] ⟨"bob".data, "alice".data, 7⟩).1 :=
  publish_failure_does_not_affect_outcome [] [wMsg] "alice".data "bob".data ⟨"hi".data⟩ 1
    ⟨⟨"bob".data, "alice".data, 7⟩⟩ false (by rfl) (by decide)

/-! ## C10: the send use case constructs the stored message -/

/-- C10: any message the send handler adds to the store has status
`sent`, `createdAt` equal to the handler-assigned current (UTC)
instant, the authenticated user as sender, the path parameter as
receiver, and the request body's content — the client controls neither
the status nor the `createdAt` component of the key. -/
theorem sendMessage_constructs_message
    (db : List Message) (userID receiverID : Str) (req : Handler.SendMessageRequest)
    (now : Nat) (publishOk : Bool) (m' : Message)
    (hmem : m' ∈ (Handler.SendMessage db userID receiverID req now publishOk).db)
    (hnew : m' ∉ db) :
    m'.status = statusSent ∧ m'.createdAt = now ∧ m'.senderId = userID ∧
      m'.receiverId = receiverID ∧ m'.content = req.content := by
  unfold Handler.SendMessage at hmem
  cases hv : Validate (Handler.mkSentMessage userID receiverID req.content now) with
  | some e => rw [hv] at hmem; exact absurd hmem hnew
  | none =>
    rw [hv] at hmem
    cases hs : SaveMessage db (Handler.mkSentMessage userID receiverID req.content now) with
    | error e =>
      rw [hs] at hmem
      cases e with
      | duplicate => exact absurd hmem hnew
      | validation e' => exact absurd hmem hnew
    | ok db' =>
      rw [hs] at hmem
      rw [saveMessage_ok_shape hs] at hmem
      rcases List.mem_append.mp hmem with h | h
      · exact absurd h hnew
      · rcases List.mem_singleton.mp h with rfl
        exact ⟨rfl, rfl, rfl, rfl, rfl⟩

/-- Witness for C10: the message persisted by a concrete send request
carries the handler-assigned status and timestamp. -/
theorem sendMessage_constructs_message_witness :
    wMsg.status = statusSent ∧ wMsg.createdAt = 1 ∧ wMsg.senderId = "alice".data ∧
      wMsg.receiverId = "bob".data ∧ wMsg.content = ("hi".data : Str) :=
  sendMessage_constructs_message [] "alice".data "bob".data ⟨"hi".data⟩ 1 false wMsg
    (by decide) (by decide)

/-! ## C8: what `Validate` accepts -/

/-- C8 counterexample: `Validate` enforces no 100-character cap on ids
(a 101-character sender id passes), and "non-empty" is really
"non-blank" (a one-space sender id is non-empty yet rejected), so the
claimed acceptance condition is not what the code checks. -/
theorem validate_cap_counterexample :
    (Validate { senderId := List.replicate 101 'a', receiverId := "b".data, createdAt := 1,
                content := "hi".data, status := statusSent } = none ∧
     (List.replicate 101 'a').length > 100) ∧
    (Validate { senderId := " ".data, receiverId := "b".data, createdAt := 1,
                content := "hi".data, status := statusSent } = some .invalidSenderID ∧
     " ".data ≠ ([] : Str)) := by
  decide

theorem isValidStatus_iff (s : Str) :
    IsValidStatus s = true ↔ (s = statusSent ∨ s = statusDelivered ∨ s = statusRead) := by
  unfold IsValidStatus
  simp only [List.any_cons, List.any_nil, Bool.or_eq_true, Bool.or_false,
    decide_eq_true_eq]
  constructor
  · rintro (h | h | h) <;> simp [h.symm]
  · rintro (h | h | h) <;> simp [h]

/-- C8 amended: `Validate` accepts a message exactly when the sender
id is non-blank, the receiver id is non-blank, sender and receiver
differ, the content is non-blank and its untrimmed length is at most
10000, and the status is one of sent/delivered/read; there is no
length cap on ids. -/
theorem validate_characterization (m : Message) :
    Validate m = none ↔
      (trimSpace m.senderId ≠ [] ∧ trimSpace m.receiverId ≠ [] ∧
       m.senderId ≠ m.receiverId ∧ trimSpace m.content ≠ [] ∧
       m.content.length ≤ 10000 ∧
       (m.status = statusSent ∨ m.status = statusDelivered ∨ m.status = statusRead)) := by
  unfold Validate
  rw [← isValidStatus_iff]
  split_ifs with h1 h2 h3 h4 h5 h6 <;> simp_all

/-! ## C6: reversing a chat id into its participants -/

/-- C6 counterexample: ids accepted by validation can recreate the
separator at the junction — for sender `"x-"` and receiver `"y"`
(both valid, neither containing `"---"`), the chat id `"x----y"`
splits into `["x", "-y"]`, which is not the original pair in either
order, so the split does not recover the participants. -/
theorem chatId_roundTrip_counterexample :
    Validate { senderId := "x-".data, receiverId := "y".data, createdAt := 1,
               content := "hi".data, status := statusSent } = none ∧
    ComputeChatID "x-".data "y".data = "x----y".data ∧
    splitSep (ComputeChatID "x-".data "y".data) = ["x".data, "-y".data] ∧
    splitSep (ComputeChatID "x-".data "y".data) ≠ ["x-".data, "y".data] ∧
    splitSep (ComputeChatID "x-".data "y".data) ≠ ["y".data, "x-".data] := by
  decide

theorem splitSep_no_dash : ∀ {s : Str}, '-' ∉ s → splitSep s = [s] := by
  intro s
  induction s with
  | nil => intro _; rfl
  | cons c rest ih =>
    intro h
    have hc : c ≠ '-' := fun he => h (he ▸ List.mem_cons_self c rest)
    have hrest : '-' ∉ rest := fun hm => h (List.mem_cons_of_mem _ hm)
    rw [splitSep]
    · rw [ih hrest]
    · intro rest1 h1 _
      exact hc h1

theorem splitSep_append : ∀ {a b : Str}, '-' ∉ a → '-' ∉ b →
    splitSep (a ++ chatSep ++ b) = [a, b] := by
  intro a
  induction a with
  | nil =>
    intro b _ hb
    show splitSep ('-' :: '-' :: '-' :: b) = [[], b]
    rw [splitSep, splitSep_no_dash hb]
  | cons c a' ih =>
    intro b ha hb
    have hc : c ≠ '-' := fun he => ha (he ▸ List.mem_cons_self c a')
    have ha' : '-' ∉ a' := fun hm => ha (List.mem_cons_of_mem _ hm)
    show splitSep (c :: (a' ++ chatSep ++ b)) = [c :: a', b]
    rw [splitSep]
    · rw [ih ha' hb]
    · intro rest1 h1 _
      exact hc h1

/-- C6 amended: for participant ids containing no `'-'` character,
splitting the chat id on the separator recovers exactly the two
original participants (as an unordered pair). -/
theorem chatId_roundTrip_of_sepFree (a b : Str) (ha : '-' ∉ a) (hb : '-' ∉ b) :
    splitSep (ComputeChatID a b) = [a, b] ∨ splitSep (ComputeChatID a b) = [b, a] := by
  unfold ComputeChatID
  cases h : strLt a b
  · right
    rw [if_neg (by simp [h])]
    exact splitSep_append hb ha
  · left
    rw [if_pos (by simp [h])]
    exact splitSep_append ha hb

/-- Witness for the amended C6 at dash-free ids. -/
theorem chatId_roundTrip_of_sepFree_witness :
    splitSep (ComputeChatID "alice".data "bob".data) = ["alice".data, "bob".data] ∨
    splitSep (ComputeChatID "alice".data "bob".data) = ["bob".data, "alice".data] :=
  chatId_roundTrip_of_sepFree "alice".data "bob".data (by decide) (by decide)

/-! ## C7: the list-messages participant check -/

theorem hasPrefixB_iff : ∀ {p s : Str}, hasPrefixB p s = true ↔ ∃ t, s = p ++ t := by
  intro p
  induction p with
  | nil =>
    intro s
    simp [hasPrefixB]
  | cons x xs ih =>
    intro s
    cases s with
    | nil => simp [hasPrefixB]
    | cons c cs =>
      simp only [hasPrefixB, Bool.and_eq_true, decide_eq_true_eq, ih]
      constructor
      · rintro ⟨rfl, t, rfl⟩
        exact ⟨t, rfl⟩
      · rintro ⟨t, ht⟩
        injection ht with h1 h2
        exact ⟨h1.symm, t, h2⟩

theorem goContains_iff : ∀ {s sub : Str}, goContains s sub = true ↔ ∃ l r, s = l ++ sub ++ r := by
  intro s
  induction s with
  | nil =>
    intro sub
    simp only [goContains, hasPrefixB_iff]
    constructor
    · rintro ⟨t, ht⟩
      rcases List.append_eq_nil.mp ht.symm with ⟨rfl, rfl⟩
      exact ⟨[], [], rfl⟩
    · rintro ⟨l, r, hlr⟩
      cases l with
      | nil => exact ⟨r, by simpa using hlr⟩
      | cons x xs => exact absurd hlr (by simp)
  | cons c rest ih =>
    intro sub
    simp only [goContains, Bool.or_eq_true, hasPrefixB_iff, ih]
    constructor
    · rintro (⟨t, ht⟩ | ⟨l, r, hlr⟩)
      · exact ⟨[], t, by simp [ht]⟩
      · exact ⟨c :: l, r, by simp [hlr]⟩
    · rintro ⟨l, r, hlr⟩
      cases l with
      | nil => exact Or.inl ⟨r, by simpa using hlr⟩
      | cons x xs =>
        right
        injection hlr with h1 h2
        exact ⟨xs, r, h2⟩

/-- Each of the two participants encoded by `ComputeChatID` occurs as
a substring of the chat id. -/
theorem participant_substring (a b : Str) :
    (∃ l r, ComputeChatID a b = l ++ a ++ r) ∧ (∃ l r, ComputeChatID a b = l ++ b ++ r) := by
  unfold ComputeChatID
  cases h : strLt a b
  · rw [if_neg (by simp [h])]
    constructor
    · exact ⟨b ++ chatSep, [], by simp⟩
    · exact ⟨[], chatSep ++ a, by simp⟩
  · rw [if_pos (by simp [h])]
    constructor
    · exact ⟨[], chatSep ++ b, by simp⟩
    · exact ⟨a ++ chatSep, [], by simp⟩

/-- C7 counterexample: the authorization check is substring
containment, not participant membership — user `"li"` is neither
participant of chat `"alice---bob"`, yet the handler does not reject
the request and the store is consulted. -/
theorem isUserParticipant_false_positive :
    splitSep "alice---bob".data = ["alice".data, "bob".data] ∧
    "li".data ≠ "alice".data ∧ "li".data ≠ "bob".data ∧
    (Handler.GetMessages [] "li".data "alice---bob".data 0 none).resp ≠ .forbidden ∧
    (Handler.GetMessages [] "li".data "alice---bob".data 0 none).storeQueried = true := by
  decide

/-- C7 amended: the handler rejects with Forbidden exactly when the
requesting user's id is not a substring of the chat id (in which case
the store is not consulted); in particular both encoded participants
always pass the check, but so can a non-participant whose id happens
to occur inside the chat id. -/
theorem isUserParticipant_characterization
    (db : List Message) (userID chatID : Str) (cursor : Nat) (limitParam : Option Int) :
    ((Handler.GetMessages db userID chatID cursor limitParam).resp = .forbidden ↔
      ¬ ∃ l r, chatID = l ++ userID ++ r) ∧
    ((Handler.GetMessages db userID chatID cursor limitParam).resp = .forbidden →
      (Handler.GetMessages db userID chatID cursor limitParam).storeQueried = false) ∧
    (∀ a b : Str, chatID = ComputeChatID a b → userID = a ∨ userID = b →
      (Handler.GetMessages db userID chatID cursor limitParam).resp ≠ .forbidden) := by
  have hauth : ∀ lp, (Handler.GetMessagesAuthorized db chatID cursor lp).resp ≠ .forbidden := by
    intro lp
    unfold Handler.GetMessagesAuthorized
    split
    · simp
    · split <;> simp
  by_cases h : Handler.isUserParticipant userID chatID = true
  · have hsub : ∃ l r, chatID = l ++ userID ++ r := goContains_iff.mp h
    have hne : (Handler.GetMessages db userID chatID cursor limitParam).resp ≠ .forbidden := by
      unfold Handler.GetMessages
      rw [h]
      simpa using hauth limitParam
    exact ⟨⟨fun hf => (hne hf).elim, fun hns => (hns hsub).elim⟩,
      fun hf => (hne hf).elim, fun _ _ _ _ => hne⟩
  · have hb : Handler.isUserParticipant userID chatID = false := by
      simpa using h
    have hout : Handler.GetMessages db userID chatID cursor limitParam =
        { resp := .forbidden, storeQueried := false } := by
      unfold Handler.GetMessages
      rw [hb]
      simp
    refine ⟨?_, ?_, ?_⟩
    · rw [hout]
      simp only [true_iff]
      intro hsub
      exact h (goContains_iff.mpr hsub)
    · intro _
      rw [hout]
    · intro a b hcid huser _
      apply h
      apply goContains_iff.mpr
      rw [hcid]
      rcases huser with rfl | rfl
      · exact (participant_substring userID b).1
      · exact (participant_substring a userID).2

/-- Witness for the amended C7: a real participant passes the check. -/
theorem isUserParticipant_characterization_witness :
    (Handler.GetMessages [] "alice".data "alice---bob".data 0 none).resp ≠ .forbidden :=
  (isUserParticipant_characterization [] "alice".data "alice---bob".data 0 none).2.2
    "alice".data "bob".data (by decide) (Or.inl rfl)

/-! ## C2: cursor-based pagination -/

theorem sortByTimeDesc_sorted (l : List Message) : (sortByTimeDesc l).Pairwise laterEq :=
  List.sorted_insertionSort laterEq l

theorem sortByTimeDesc_perm (l : List Message) : List.Perm (sortByTimeDesc l) l :=
  List.perm_insertionSort laterEq l

theorem sortByTimeDesc_strict {l : List Message}
    (hdist : l.Pairwise (fun a b => a.createdAt ≠ b.createdAt)) :
    (sortByTimeDesc l).Pairwise (fun a b => b.createdAt < a.createdAt) := by
  have hsorted := sortByTimeDesc_sorted l
  have hdist' : (sortByTimeDesc l).Pairwise (fun a b => a.createdAt ≠ b.createdAt) :=
    ((sortByTimeDesc_perm l).pairwise_iff (fun h => h.symm)).mpr hdist
  exact (hsorted.and hdist').imp (fun h => lt_of_le_of_ne h.1 (Ne.symm h.2))

/-- C2 counterexample: cursor pagination loses messages whose
`createdAt` collides. With two messages of the alice/bob conversation
both at instant 5 and limit 1, the first page returns one of them and
the follow-up call with the cursor from the last returned message
returns an empty page, so the other message is never returned —
a message is skipped. -/
theorem getMessages_pagination_counterexample :
    GetMessages
      [{ senderId := "alice".data, receiverId := "bob".data, createdAt := 5,
         content := "a".data, status := statusSent },
       { senderId := "bob".data, receiverId := "alice".data, createdAt := 5,
         content := "b".data, status := statusSent }]
      "alice---bob".data 0 1 =
      .ok [{ senderId := "alice".data, receiverId := "bob".data, createdAt := 5,
             content := "a".data, status := statusSent }] ∧
    GetMessages
      [{ senderId := "alice".data, receiverId := "bob".data, createdAt := 5,
         content := "a".data, status := statusSent },
       { senderId := "bob".data, receiverId := "alice".data, createdAt := 5,
         content := "b".data, status := statusSent }]
      "alice---bob".data 5 1 = .ok [] ∧
    betweenUsers "alice".data "bob".data
      { senderId := "bob".data, receiverId := "alice".data, createdAt := 5,
        content := "b".data, status := statusSent } = true ∧
    ({ senderId := "bob".data, receiverId := "alice".data, createdAt := 5,
       content := "b".data, status := statusSent } : Message) ∉
      ([{ senderId := "alice".data, receiverId := "bob".data, createdAt := 5,
          content := "a".data, status := statusSent }] : List Message) :=
  ⟨rfl, rfl, by decide, by decide⟩

/-- C2 amended: for a parseable chat id, a caller-supplied limit in
[1,100], and a conversation whose messages have pairwise-distinct,
positive `createdAt` instants, the first page is the `L` most recent
messages in strictly descending order, and the follow-up call with the
cursor taken from the last returned message returns exactly the
strictly-older remainder — no message repeated and none skipped.
Without the distinctness assumption the claim fails (see the
counterexample). -/
theorem getMessages_pagination (db : List Message) (cid u1 u2 : Str) (L : Int)
    (hsplit : splitSep cid = [u1, u2]) (hL1 : 1 ≤ L) (hL2 : L ≤ 100)
    (hdist : (db.filter (betweenUsers u1 u2)).Pairwise (fun a b => a.createdAt ≠ b.createdAt))
    (hpos : ∀ m ∈ db.filter (betweenUsers u1 u2), 0 < m.createdAt) :
    GetMessages db cid 0 L =
      .ok ((sortByTimeDesc (db.filter (betweenUsers u1 u2))).take L.toNat) ∧
    ((sortByTimeDesc (db.filter (betweenUsers u1 u2))).take L.toNat).Pairwise
      (fun a b => b.createdAt < a.createdAt) ∧
    ((sortByTimeDesc (db.filter (betweenUsers u1 u2))).take L.toNat).length =
      min L.toNat (db.filter (betweenUsers u1 u2)).length ∧
    (∀ m ∈ db.filter (betweenUsers u1 u2),
      m ∉ (sortByTimeDesc (db.filter (betweenUsers u1 u2))).take L.toNat →
      ∀ m' ∈ (sortByTimeDesc (db.filter (betweenUsers u1 u2))).take L.toNat,
        m.createdAt < m'.createdAt) ∧
    (∀ ml, ((sortByTimeDesc (db.filter (betweenUsers u1 u2))).take L.toNat).getLast? = some ml →
      GetMessages db cid ml.createdAt L =
        .ok ((sortByTimeDesc ((db.filter (betweenUsers u1 u2)).filter
            (fun m => m.createdAt < ml.createdAt))).take L.toNat) ∧
      (∀ m' ∈ (sortByTimeDesc (db.filter (betweenUsers u1 u2))).take L.toNat,
        ml.createdAt ≤ m'.createdAt) ∧
      (∀ m ∈ db.filter (betweenUsers u1 u2),
        m ∈ (sortByTimeDesc (db.filter (betweenUsers u1 u2))).take L.toNat ∨
          m.createdAt < ml.createdAt)) := by
  have hlim : (if L ≤ 0 || L > 100 then (50 : Int) else L) = L := by
    rw [if_neg]
    simp only [Bool.or_eq_true, decide_eq_true_eq, not_or]
    omega
  have hperm := sortByTimeDesc_perm (db.filter (betweenUsers u1 u2))
  have hstrict := sortByTimeDesc_strict hdist
  have hp1sub : List.Sublist ((sortByTimeDesc (db.filter (betweenUsers u1 u2))).take L.toNat)
      (sortByTimeDesc (db.filter (betweenUsers u1 u2))) := List.take_sublist _ _
  -- the "L most recent" property: non-returned messages are strictly older
  have htop : ∀ m ∈ db.filter (betweenUsers u1 u2),
      m ∉ (sortByTimeDesc (db.filter (betweenUsers u1 u2))).take L.toNat →
      ∀ m' ∈ (sortByTimeDesc (db.filter (betweenUsers u1 u2))).take L.toNat,
        m.createdAt < m'.createdAt := by
    intro m hm hnot m' hm'
    have hmem : m ∈ sortByTimeDesc (db.filter (betweenUsers u1 u2)) := hperm.mem_iff.mpr hm
    rw [← List.take_append_drop L.toNat (sortByTimeDesc (db.filter (betweenUsers u1 u2)))]
      at hmem hstrict
    rcases List.mem_append.mp hmem with h | h
    · exact absurd h hnot
    · exact (List.pairwise_append.mp hstrict).2.2 m' hm' m h
  refine ⟨?_, ?_, ?_, htop, ?_⟩
  · unfold GetMessages
    rw [hsplit]
    simp only [if_pos rfl]
    rw [if_neg (show ¬((L ≤ 0 || L > 100) = true) by simp; omega)]
    simp
  · exact hstrict.sublist hp1sub
  · rw [List.length_take, hperm.length_eq]
  · intro ml hml
    have hmlp1 : ml ∈ (sortByTimeDesc (db.filter (betweenUsers u1 u2))).take L.toNat := by
      have := List.dropLast_append_getLast? ml hml
      rw [← this]
      exact List.mem_append_right _ (List.mem_singleton_self ml)
    have hmlconv : ml ∈ db.filter (betweenUsers u1 u2) :=
      hperm.mem_iff.mp (hp1sub.mem hmlp1)
    have hmlpos : 0 < ml.createdAt := hpos ml hmlconv
    refine ⟨?_, ?_, ?_⟩
    · unfold GetMessages
      rw [hsplit]
      simp only [if_neg (show ¬(ml.createdAt = 0) by omega)]
      rw [if_neg (show ¬((L ≤ 0 || L > 100) = true) by simp; omega)]
    · -- the cursor is the minimum of the (descending) first page
      have hp1sorted : ((sortByTimeDesc (db.filter (betweenUsers u1 u2))).take
          L.toNat).Pairwise laterEq :=
        (sortByTimeDesc_sorted _).sublist hp1sub
      intro m' hm'
      have hsplit1 := List.dropLast_append_getLast? ml hml
      rw [← hsplit1] at hp1sorted hm'
      rcases List.mem_append.mp hm' with h | h
      · exact (List.pairwise_append.mp hp1sorted).2.2 m' h ml (List.mem_singleton_self ml)
      · rw [List.mem_singleton.mp h]
    · intro m hm
      by_cases hmem : m ∈ (sortByTimeDesc (db.filter (betweenUsers u1 u2))).take L.toNat
      · exact Or.inl hmem
      · exact Or.inr (htop m hm hmem ml hmlp1)

/-- Witness for the amended C2 at a two-message conversation with
distinct timestamps and limit 1. -/
theorem getMessages_pagination_witness :
    GetMessages
      [{ senderId := "alice".data, receiverId := "bob".data, createdAt := 5,
         content := "a".data, status := statusSent },
       { senderId := "bob".data, receiverId := "alice".data, createdAt := 3,
         content := "b".data, status := statusSent }]
      "alice---bob".data 0 1 =
      .ok ((sortByTimeDesc
        ([{ senderId := "alice".data, receiverId := "bob".data, createdAt := 5,
            content := "a".data, status := statusSent },
          { senderId := "bob".data, receiverId := "alice".data, createdAt := 3,
            content := "b".data, status := statusSent }].filter
          (betweenUsers "alice".data "bob".data))).take (1 : Int).toNat) :=
  (getMessages_pagination _ _ _ _ 1 (by decide) (by decide) (by decide)
    (by decide) (by decide)).1

/-! ## C9: the chat-session contract -/

theorem sessionFor_other (db : List Message) (u p : Str) :
    (sessionFor db u p).otherParticipant = p := by
  unfold sessionFor
  split <;> rfl

theorem sessionFor_unread (db : List Message) (u p : Str) :
    (sessionFor db u p).unreadCount =
      (db.filter (fun m =>
        m.senderId = p && m.receiverId = u && m.status ≠ statusRead)).length := by
  unfold sessionFor
  split <;> rfl

theorem betweenUsers_otherOf {u : Str} {m : Message} (h : involvesUser u m = true) :
    betweenUsers u (otherOf u m) m = true := by
  by_cases hs : m.senderId = u
  · simp [otherOf, betweenUsers, hs]
  · have hr : m.receiverId = u := by
      simp [involvesUser, hs] at h
      exact h
    simp [otherOf, betweenUsers, hs, hr]

theorem participantsOf_mem {db : List Message} {u p : Str} (hp : p ∈ participantsOf db u) :
    ∃ m ∈ db, involvesUser u m = true ∧ otherOf u m = p := by
  unfold participantsOf at hp
  rw [List.mem_dedup] at hp
  rcases List.mem_map.mp hp with ⟨m, hm, hom⟩
  rcases List.mem_filter.mp hm with ⟨hmdb, hminv⟩
  exact ⟨m, hmdb, hminv, hom⟩

theorem sessionFor_lastMessage {db : List Message} {u p : Str}
    (hne : db.filter (betweenUsers u p) ≠ []) :
    ∃ m ∈ db, betweenUsers u p m = true ∧
      (∀ m' ∈ db, betweenUsers u p m' = true → m'.createdAt ≤ m.createdAt) ∧
      (sessionFor db u p).lastMessage = m.content ∧
      (sessionFor db u p).lastMessageBy = m.senderId ∧
      (sessionFor db u p).lastMessageAt = m.createdAt := by
  cases hs : sortByTimeDesc (db.filter (betweenUsers u p)) with
  | nil => exact absurd ((hs ▸ sortByTimeDesc_perm (db.filter (betweenUsers u p)) :
      List.Perm [] _).symm.eq_nil) hne
  | cons hd tl =>
    have hhd : hd ∈ db.filter (betweenUsers u p) :=
      (sortByTimeDesc_perm _).mem_iff.mp (hs ▸ List.mem_cons_self hd tl)
    rcases List.mem_filter.mp hhd with ⟨hhdb, hhbt⟩
    refine ⟨hd, hhdb, hhbt, ?_, ?_, ?_, ?_⟩
    · intro m' hm' hbt'
      have hm'sorted : m' ∈ sortByTimeDesc (db.filter (betweenUsers u p)) :=
        (sortByTimeDesc_perm _).mem_iff.mpr (List.mem_filter.mpr ⟨hm', hbt'⟩)
      rw [hs] at hm'sorted
      rcases List.mem_cons.mp hm'sorted with rfl | h
      · exact le_refl _
      · have hsorted := sortByTimeDesc_sorted (db.filter (betweenUsers u p))
        rw [hs] at hsorted
        exact (List.pairwise_cons.mp hsorted).1 m' h
    · unfold sessionFor
      rw [hs]
    · unfold sessionFor
      rw [hs]
    · unfold sessionFor
      rw [hs]

/-- C9: `GetChatSessions u` contains exactly one session per distinct
counterparty of `u`, each session's `unreadCount` counts the messages
from that counterparty to `u` with status other than `read`, the
last-message fields come from a most recent message of that
conversation regardless of direction, and the sessions are sorted by
`lastMessageAt` descending. -/
theorem getChatSessions_contract (db : List Message) (u : Str) :
    ((GetChatSessions db u).map (fun s => s.otherParticipant)).Nodup ∧
    (∀ v, (∃ s ∈ GetChatSessions db u, s.otherParticipant = v) ↔
      (∃ m ∈ db, involvesUser u m = true ∧ otherOf u m = v)) ∧
    (∀ s ∈ GetChatSessions db u,
      s.unreadCount = (db.filter (fun m =>
        m.senderId = s.otherParticipant && m.receiverId = u &&
          m.status ≠ statusRead)).length) ∧
    (∀ s ∈ GetChatSessions db u,
      ∃ m ∈ db, betweenUsers u s.otherParticipant m = true ∧
        (∀ m' ∈ db, betweenUsers u s.otherParticipant m' = true →
          m'.createdAt ≤ m.createdAt) ∧
        s.lastMessage = m.content ∧ s.lastMessageBy = m.senderId ∧
        s.lastMessageAt = m.createdAt) ∧
    (GetChatSessions db u).Pairwise (fun a b => b.lastMessageAt ≤ a.lastMessageAt) := by
  have hperm : List.Perm (GetChatSessions db u)
      ((participantsOf db u).map (sessionFor db u)) :=
    List.perm_insertionSort sessionLaterEq _
  have hsmem : ∀ s, s ∈ GetChatSessions db u ↔
      ∃ p ∈ participantsOf db u, sessionFor db u p = s := by
    intro s
    rw [hperm.mem_iff, List.mem_map]
  have hmapeq : ((participantsOf db u).map (sessionFor db u)).map
      (fun s => s.otherParticipant) = participantsOf db u := by
    rw [List.map_map]
    have : ∀ p ∈ participantsOf db u,
        ((fun s => s.otherParticipant) ∘ sessionFor db u) p = id p := by
      intro p _
      exact sessionFor_other db u p
    rw [List.map_congr_left this, List.map_id]
  refine ⟨?_, ?_, ?_, ?_, ?_⟩
  · rw [(hperm.map (fun s => s.otherParticipant)).nodup_iff, hmapeq]
    exact List.nodup_dedup _
  · intro v
    constructor
    · rintro ⟨s, hs, rfl⟩
      rcases (hsmem s).mp hs with ⟨p, hp, rfl⟩
      rw [sessionFor_other]
      exact participantsOf_mem hp
    · rintro ⟨m, hm, hinv, hom⟩
      have hp : v ∈ participantsOf db u := by
        unfold participantsOf
        rw [List.mem_dedup]
        exact List.mem_map.mpr ⟨m, List.mem_filter.mpr ⟨hm, hinv⟩, hom⟩
      exact ⟨sessionFor db u v, (hsmem _).mpr ⟨v, hp, rfl⟩, sessionFor_other db u v⟩
  · intro s hs
    rcases (hsmem s).mp hs with ⟨p, hp, rfl⟩
    rw [sessionFor_other, sessionFor_unread]
  · intro s hs
    rcases (hsmem s).mp hs with ⟨p, hp, rfl⟩
    rcases participantsOf_mem hp with ⟨m0, hm0, hinv, hom⟩
    have hbt : betweenUsers u p m0 = true := hom ▸ betweenUsers_otherOf hinv
    have hne : db.filter (betweenUsers u p) ≠ [] :=
      List.ne_nil_of_mem (List.mem_filter.mpr ⟨hm0, hbt⟩)
    rw [sessionFor_other]
    exact sessionFor_lastMessage hne
  · exact List.sorted_insertionSort sessionLaterEq _

/-- Witness for C9: one message from alice to bob yields, for bob, a
single session with counterparty alice, unread count 1, and alice's
message as last message. -/
theorem getChatSessions_contract_witness :
    ∃ s ∈ GetChatSessions [wMsg] "bob".data,
      s.otherParticipant = "alice".data :=
  (getChatSessions_contract [wMsg] "bob".data).2.1 "alice".data |>.mpr
    ⟨wMsg, by decide, by decide, by decide⟩

end Messaging
